import Mathlib

/-!
Verification of the albums screen and key-configuration logic of the rmpc
terminal music client. The Rust sources embedded here are
`src/config/mod.rs` (key tables, config conversion) and
`src/ui/screens/albums.rs` (the albums Screen Orchestrator). Collaborators
whose sources are not part of the verified subset (the `DirStack`
navigation stack, the protocol client, the browser entry type and the
action enums defined in other ui modules) are modelled from the
specification; each such definition carries a doc comment saying so.
-/

namespace Rmpc

/-- Key codes, embedding the subset of `crossterm::event::KeyCode` that the
sources use. -/
inductive KeyCode where
  | Char (c : Char)
  | Enter
  | Esc
  | Backspace
  | Left
  | Right
  | Tab
deriving DecidableEq

/-- Modifier mask, embedding the `crossterm::event::KeyModifiers` values that
appear in the sources. -/
inductive KeyModifiers where
  | NONE
  | SHIFT
  | CONTROL
deriving DecidableEq

/-- A key binding key, from `src/config/mod.rs` (`struct Key`). -/
structure Key where
  key : KeyCode
  modifiers : KeyModifiers
deriving DecidableEq

/-- A raw key event (code plus modifiers), embedding `crossterm::event::KeyEvent`
as far as the sources consult it. -/
structure KeyEvent where
  code : KeyCode
  modifiers : KeyModifiers
deriving DecidableEq

/-- Conversion of a key event into a lookup key, from `src/config/mod.rs`
(`impl From<KeyEvent> for Key`). -/
def keyOf (e : KeyEvent) : Key :=
  { key := e.code, modifiers := e.modifiers }

/-- Modelled from the spec: the global-scope actions; the enum itself lives in a
ui module outside the verified subset, its variants are those registered by the
default key configuration in `src/config/mod.rs`. -/
inductive GlobalAction where
  | Quit | NextTrack | PreviousTrack | Stop | ToggleRepeat | ToggleRandom
  | ToggleSingle | TogglePause | SeekForward | SeekBack | VolumeDown | VolumeUp
  | NextTab | PreviousTab | ToggleConsume
deriving DecidableEq

/-- Modelled from the spec: the common-navigation actions; the enum lives in a ui
module outside the verified subset, its variants are those referenced by
`src/config/mod.rs` and `src/ui/screens/albums.rs`. -/
inductive CommonAction where
  | Up | Down | MoveUp | MoveDown | Right | Left | DownHalf | UpHalf
  | Bottom | Top | EnterSearch | NextResult | PreviousResult
  | Select | Add | Delete | Rename | Close | Confirm | FocusInput
deriving DecidableEq

/-- The albums-screen actions, from `src/ui/screens/albums.rs`
(`pub enum AlbumsActions {}` - deliberately empty). -/
inductive AlbumsActions where

instance : DecidableEq AlbumsActions := fun a _ => nomatch a

/-- Modelled from the spec: artists-screen actions; the defining module is outside
the verified subset and the default configuration registers none. -/
inductive ArtistsActions where

instance : DecidableEq ArtistsActions := fun a _ => nomatch a

/-- Modelled from the spec: directories-screen actions; the defining module is
outside the verified subset and the default configuration registers none. -/
inductive DirectoriesActions where

instance : DecidableEq DirectoriesActions := fun a _ => nomatch a

/-- Modelled from the spec: playlists-screen actions; the defining module is
outside the verified subset and the default configuration registers none. -/
inductive PlaylistsActions where

instance : DecidableEq PlaylistsActions := fun a _ => nomatch a

/-- Modelled from the spec: logs-screen actions; variants are those registered by
the default configuration in `src/config/mod.rs`. -/
inductive LogsActions where
  | Clear
deriving DecidableEq

/-- Modelled from the spec: queue-screen actions; variants are those registered by
the default configuration in `src/config/mod.rs`. -/
inductive QueueActions where
  | Delete | DeleteAll | Play | Save | AddToPlaylist
deriving DecidableEq

/-- Insertion into a key-to-action map with replacement: any existing binding for
the same key is removed. This embeds the overriding behaviour of inserting into
a `HashMap`: a later insertion for the same key overwrites an earlier one. -/
def mapInsert {α : Type} (m : List (Key × α)) (k : Key) (a : α) : List (Key × α) :=
  (m.filter (fun p => p.1 ≠ k)) ++ [(k, a)]

/-- Lookup in a key-to-action map, embedding `HashMap::get`. -/
def mapGet {α : Type} (m : List (Key × α)) (k : Key) : Option α :=
  (m.find? (fun p => p.1 = k)).map (fun p => p.2)

/-- The flattened pair sequence produced by the `flat_map` step of `invert_map`
in `src/config/mod.rs`: every `(action, keys)` entry contributes one
`(key, action)` pair per key, in the order the entries are iterated. -/
def flatBinds {α : Type} (v : List (α × List Key)) : List (Key × α) :=
  v.flatMap (fun p => p.2.map (fun k => (k, p.1)))

/-- Inversion of an action-to-keys table into a key-to-action map, from
`src/config/mod.rs` (`fn invert_map`): flatten the entries, then collect into a
map where a later pair for the same key overwrites an earlier one. The Rust
input is a `HashMap`, whose iteration order is unspecified; the argument list
here stands for whichever order one run yields, so a conclusion about the built
table is a property of the code only if it holds for every such list (or
explicitly compares different orders). -/
def invert_map {α : Type} (v : List (α × List Key)) : List (Key × α) :=
  (flatBinds v).foldl (fun m kv => mapInsert m kv.1 kv.2) []

/-- The on-file key configuration, from `src/config/mod.rs`
(`struct KeyConfigFile`), with each per-scope `HashMap<Action, Vec<Key>>`
represented as its entry list in the iteration order the `HashMap` happens to
yield. Rust fixes no such order, so nothing proved about one particular list
transfers to the code unless it holds for every permutation of the entries. -/
structure KeyConfigFile where
  global : List (GlobalAction × List Key)
  navigation : List (CommonAction × List Key)
  albums : List (AlbumsActions × List Key)
  artists : List (ArtistsActions × List Key)
  directories : List (DirectoriesActions × List Key)
  playlists : List (PlaylistsActions × List Key)
  logs : List (LogsActions × List Key)
  queue : List (QueueActions × List Key)
deriving DecidableEq

/-- The runtime key configuration, from `src/config/mod.rs`
(`struct KeyConfig`). -/
structure KeyConfig where
  global : List (Key × GlobalAction)
  navigation : List (Key × CommonAction)
  albums : List (Key × AlbumsActions)
  artists : List (Key × ArtistsActions)
  directories : List (Key × DirectoriesActions)
  playlists : List (Key × PlaylistsActions)
  logs : List (Key × LogsActions)
  queue : List (Key × QueueActions)
deriving DecidableEq

/-- Conversion of the on-file key configuration into the runtime one, from
`src/config/mod.rs` (`impl From<KeyConfigFile> for KeyConfig`). -/
def keyConfigFrom (value : KeyConfigFile) : KeyConfig where
  global := invert_map value.global
  navigation := invert_map value.navigation
  albums := invert_map value.albums
  artists := invert_map value.artists
  directories := invert_map value.directories
  playlists := invert_map value.playlists
  logs := invert_map value.logs
  queue := invert_map value.queue

/-- The default key configuration, from `src/config/mod.rs`
(`impl Default for KeyConfigFile`), entries in source order. Within every scope
each (key, modifiers) pair is claimed by at most one action, so the table built
from it does not depend on the iteration order. -/
def defaultKeyConfigFile : KeyConfigFile where
  global := [
    (GlobalAction.Quit, [⟨KeyCode.Char 'q', KeyModifiers.NONE⟩]),
    (GlobalAction.NextTrack, [⟨KeyCode.Char '>', KeyModifiers.NONE⟩]),
    (GlobalAction.PreviousTrack, [⟨KeyCode.Char '<', KeyModifiers.NONE⟩]),
    (GlobalAction.Stop, [⟨KeyCode.Char 's', KeyModifiers.NONE⟩]),
    (GlobalAction.ToggleRepeat, [⟨KeyCode.Char 'z', KeyModifiers.NONE⟩]),
    (GlobalAction.ToggleRandom, [⟨KeyCode.Char 'x', KeyModifiers.NONE⟩]),
    (GlobalAction.ToggleSingle, [⟨KeyCode.Char 'c', KeyModifiers.NONE⟩]),
    (GlobalAction.TogglePause, [⟨KeyCode.Char 'p', KeyModifiers.NONE⟩]),
    (GlobalAction.SeekForward, [⟨KeyCode.Char 'f', KeyModifiers.NONE⟩]),
    (GlobalAction.SeekBack, [⟨KeyCode.Char 'b', KeyModifiers.NONE⟩]),
    (GlobalAction.VolumeDown, [⟨KeyCode.Char ',', KeyModifiers.NONE⟩]),
    (GlobalAction.VolumeUp, [⟨KeyCode.Char '.', KeyModifiers.NONE⟩]),
    (GlobalAction.NextTab, [⟨KeyCode.Right, KeyModifiers.NONE⟩]),
    (GlobalAction.PreviousTab, [⟨KeyCode.Left, KeyModifiers.NONE⟩]),
    (GlobalAction.ToggleConsume, [⟨KeyCode.Char 'v', KeyModifiers.NONE⟩])]
  navigation := [
    (CommonAction.Up, [⟨KeyCode.Char 'k', KeyModifiers.NONE⟩]),
    (CommonAction.Down, [⟨KeyCode.Char 'j', KeyModifiers.NONE⟩]),
    (CommonAction.MoveUp, [⟨KeyCode.Char 'K', KeyModifiers.SHIFT⟩]),
    (CommonAction.MoveDown, [⟨KeyCode.Char 'J', KeyModifiers.SHIFT⟩]),
    (CommonAction.Right, [⟨KeyCode.Char 'l', KeyModifiers.NONE⟩]),
    (CommonAction.Left, [⟨KeyCode.Char 'h', KeyModifiers.NONE⟩]),
    (CommonAction.DownHalf, [⟨KeyCode.Char 'd', KeyModifiers.CONTROL⟩]),
    (CommonAction.UpHalf, [⟨KeyCode.Char 'u', KeyModifiers.CONTROL⟩]),
    (CommonAction.Bottom, [⟨KeyCode.Char 'G', KeyModifiers.SHIFT⟩]),
    (CommonAction.Top, [⟨KeyCode.Char 'g', KeyModifiers.NONE⟩]),
    (CommonAction.EnterSearch, [⟨KeyCode.Char '/', KeyModifiers.NONE⟩]),
    (CommonAction.NextResult, [⟨KeyCode.Char 'n', KeyModifiers.CONTROL⟩]),
    (CommonAction.PreviousResult, [⟨KeyCode.Char 'N', KeyModifiers.SHIFT⟩]),
    (CommonAction.Select, [⟨KeyCode.Char ' ', KeyModifiers.NONE⟩]),
    (CommonAction.Add, [⟨KeyCode.Char 'a', KeyModifiers.NONE⟩]),
    (CommonAction.Delete, [⟨KeyCode.Char 'D', KeyModifiers.SHIFT⟩]),
    (CommonAction.Rename, [⟨KeyCode.Char 'r', KeyModifiers.NONE⟩]),
    (CommonAction.Close, [⟨KeyCode.Char 'c', KeyModifiers.CONTROL⟩,
      ⟨KeyCode.Esc, KeyModifiers.NONE⟩]),
    (CommonAction.Confirm, [⟨KeyCode.Enter, KeyModifiers.NONE⟩]),
    (CommonAction.FocusInput, [⟨KeyCode.Char 'i', KeyModifiers.NONE⟩])]
  albums := []
  artists := []
  directories := []
  playlists := []
  logs := [
    (LogsActions.Clear, [⟨KeyCode.Char 'D', KeyModifiers.SHIFT⟩])]
  queue := [
    (QueueActions.Delete, [⟨KeyCode.Char 'd', KeyModifiers.NONE⟩]),
    (QueueActions.DeleteAll, [⟨KeyCode.Char 'D', KeyModifiers.SHIFT⟩]),
    (QueueActions.Play, [⟨KeyCode.Enter, KeyModifiers.NONE⟩]),
    (QueueActions.Save, [⟨KeyCode.Char 's', KeyModifiers.CONTROL⟩]),
    (QueueActions.AddToPlaylist, [⟨KeyCode.Char 'a', KeyModifiers.NONE⟩])]

/-- The on-file configuration, from `src/config/mod.rs` (`struct ConfigFile`).
The ui sub-configuration is parsed by a module outside the verified subset and
is carried opaquely as `Option Unit`. -/
structure ConfigFile where
  address : String
  volume_step : Nat
  status_update_interval_ms : Option Nat
  keybinds : KeyConfigFile
  ui : Option Unit
deriving DecidableEq

/-- The runtime configuration, from `src/config/mod.rs` (`struct Config`), with
the ui part carried opaquely. -/
structure Config where
  address : String
  volume_step : Nat
  keybinds : KeyConfig
  status_update_interval_ms : Option Nat
  ui : Unit
deriving DecidableEq

/-- Failure values of fallible operations: a context-carrying error message
(embedding `anyhow::Error`), or a process panic (an out-of-bounds index). -/
inductive RErr where
  | e (s : String)
  | panic
deriving DecidableEq

/-- Result type of fallible operations, embedding `anyhow::Result`. -/
abbrev Res (α : Type) : Type := Except RErr α

/-- Attaching context to a failure, embedding `anyhow::Context::context`; a
panic is not a returned value and passes through unchanged. -/
def Res.context {α : Type} (r : Res α) (msg : String) : Res α :=
  match r with
  | Except.error (RErr.e s) => Except.error (RErr.e (msg ++ ": " ++ s))
  | other => other

/-- Conversion of the on-file configuration into the runtime one, from
`src/config/mod.rs` (`impl TryFrom<ConfigFile> for Config`). The fallible ui
conversion is performed by a module outside the verified subset and is passed
in as `uiConv`. -/
def config_try_from (uiConv : Option Unit → Res Unit) (value : ConfigFile) : Res Config := do
  let ui ← uiConv value.ui
  pure { ui := ui,
         address := value.address,
         volume_step := value.volume_step,
         status_update_interval_ms := value.status_update_interval_ms.map (fun v => max v 100),
         keybinds := keyConfigFrom value.keybinds }

/-- Modelled from the spec: a Song record decoded from the server, with fields
like title/album/file; the defining module is outside the verified subset. -/
structure MpdSong where
  file : String
  title : String
  album : String
deriving DecidableEq

/-- Modelled from the spec: the mixed container/leaf entry type of the albums
browser (`StringOrSong` from the browser module, outside the verified subset):
a container (an album name) or a leaf (a song title). -/
inductive StringOrSong where
  | Dir (s : String)
  | Song (s : String)
deriving DecidableEq

/-- Modelled from the spec: the display/current value of an entry
(`to_current_value` from the browser module): the carried string. -/
def StringOrSong.to_current_value : StringOrSong → String
  | StringOrSong.Dir s => s
  | StringOrSong.Song s => s

/-- The semantic content of the prefetch slot: either the title entries of the
album that would be entered, or the song that would be enqueued. Terminal
rendering of this content into list items is out of scope. -/
inductive Preview where
  | titles (ts : List StringOrSong)
  | song (s : MpdSong)
deriving DecidableEq

/-- A tag filter, from the protocol client interface
(`Filter { tag, value }`). -/
structure MpdFilter where
  tag : String
  value : String
deriving DecidableEq

/-- Modelled from the spec: the Protocol Client as consulted by the albums
screen - typed convenience calls returning decoded results or failures. Each
call is represented by a deterministic oracle function so a concrete client is
an explicit table of responses. -/
structure Client where
  list_tag : String → Option (List MpdFilter) → Res (Option (List String))
  find : List MpdFilter → Res (Option (List MpdSong))
  find_add : List MpdFilter → Res Unit

/-- Modelled from the spec: one Navigation Level - an ordered list of entries
plus a selection index, `none` when the level is empty. -/
structure NavLevel where
  items : List StringOrSong
  selected : Option Nat
deriving DecidableEq

/-- Modelled from the spec: a freshly fetched level selects its first item when
nonempty. -/
def NavLevel.ofItems (items : List StringOrSong) : NavLevel :=
  { items := items, selected := if items.isEmpty then none else some 0 }

/-- Modelled from the spec: the Navigation Stack (`DirStack`, whose source is
outside the verified subset): the interactively mutable top level, the levels
beneath it, the optional incremental filter, the prefetch slot (`next`, `none`
standing for the initially empty preview), and the viewport height used for
half-viewport movement. -/
structure DirStack where
  current : NavLevel
  others : List NavLevel
  filter : Option String
  next : Option Preview
  viewport : Nat
deriving DecidableEq

/-- Modelled from the spec: `DirStack::new` seeds a single root level and
selects its first entry. -/
def DirStack.new (roots : List StringOrSong) (viewport : Nat) : DirStack :=
  { current := NavLevel.ofItems roots, others := [], filter := none,
    next := none, viewport := viewport }

/-- Modelled from the spec: single-step cursor move down, clamped to the last
index. -/
def NavLevel.selDown (l : NavLevel) : NavLevel :=
  match l.selected with
  | none => l
  | some i => { l with selected := some (min (i + 1) (l.items.length - 1)) }

/-- Modelled from the spec: single-step cursor move up, clamped to index 0. -/
def NavLevel.selUp (l : NavLevel) : NavLevel :=
  match l.selected with
  | none => l
  | some i => { l with selected := some (i - 1) }

/-- Modelled from the spec: half-viewport move down, clamped to the last
index. -/
def NavLevel.selDownHalf (l : NavLevel) (viewport : Nat) : NavLevel :=
  match l.selected with
  | none => l
  | some i => { l with selected := some (min (i + viewport / 2) (l.items.length - 1)) }

/-- Modelled from the spec: half-viewport move up, clamped to index 0. -/
def NavLevel.selUpHalf (l : NavLevel) (viewport : Nat) : NavLevel :=
  match l.selected with
  | none => l
  | some i => { l with selected := some (i - viewport / 2) }

/-- Modelled from the spec: full jump to the first entry. -/
def NavLevel.selFirst (l : NavLevel) : NavLevel :=
  { l with selected := if l.items.isEmpty then none else some 0 }

/-- Modelled from the spec: full jump to the last entry. -/
def NavLevel.selLast (l : NavLevel) : NavLevel :=
  { l with selected := if l.items.isEmpty then none else some (l.items.length - 1) }

/-- Modelled from the spec: case-sensitive substring containment of the filter
in an entry's display text. -/
def strContainsSub (hay pat : String) : Bool :=
  (List.range (hay.data.length + 1)).any (fun i => List.isPrefixOf pat.data (hay.data.drop i))

/-- Modelled from the spec: whether an entry matches the active filter
(case-sensitive substring match on its display text). -/
def filterMatches (f : String) (e : StringOrSong) : Bool :=
  strContainsSub e.to_current_value f

/-- Modelled from the spec: `jump_forward` on a level - move the selection to
the next matching entry, cyclically wrapping past the end; a no-op when nothing
matches. -/
def NavLevel.jumpFwd (l : NavLevel) (f : String) : NavLevel :=
  let n := l.items.length
  let start := l.selected.getD 0
  let pm := fun i => filterMatches f (l.items.getD i (StringOrSong.Dir ""))
  match (List.range' (start + 1) (n - (start + 1))).find? pm with
  | some j => { l with selected := some j }
  | none =>
    match (List.range (min (start + 1) n)).find? pm with
    | some j => { l with selected := some j }
    | none => l

/-- Modelled from the spec: `jump_back` on a level - move the selection to the
previous matching entry, cyclically wrapping past the start; a no-op when
nothing matches. -/
def NavLevel.jumpBack (l : NavLevel) (f : String) : NavLevel :=
  let n := l.items.length
  let start := l.selected.getD 0
  let pm := fun i => filterMatches f (l.items.getD i (StringOrSong.Dir ""))
  match ((List.range start).reverse).find? pm with
  | some j => { l with selected := some j }
  | none =>
    match ((List.range' start (n - start)).reverse).find? pm with
    | some j => { l with selected := some j }
    | none => l

/-- Modelled from the spec: `DirStack::next` - cursor down on the top level. -/
def DirStack.nextOne (s : DirStack) : DirStack :=
  { s with current := s.current.selDown }

/-- Modelled from the spec: `DirStack::prev` - cursor up on the top level. -/
def DirStack.prevOne (s : DirStack) : DirStack :=
  { s with current := s.current.selUp }

/-- Modelled from the spec: `DirStack::next_half_viewport`. -/
def DirStack.next_half_viewport (s : DirStack) : DirStack :=
  { s with current := s.current.selDownHalf s.viewport }

/-- Modelled from the spec: `DirStack::prev_half_viewport`. -/
def DirStack.prev_half_viewport (s : DirStack) : DirStack :=
  { s with current := s.current.selUpHalf s.viewport }

/-- Modelled from the spec: `DirStack::first` - full jump to the first entry of
the top level. -/
def DirStack.firstOne (s : DirStack) : DirStack :=
  { s with current := s.current.selFirst }

/-- Modelled from the spec: `DirStack::last` - full jump to the last entry of
the top level. -/
def DirStack.lastOne (s : DirStack) : DirStack :=
  { s with current := s.current.selLast }

/-- Modelled from the spec: `DirStack::push` appends a new top level seeded with
the given entries, resets its selection to the first item (if any) and clears
the filter. -/
def DirStack.push (s : DirStack) (es : List StringOrSong) : DirStack :=
  { s with
    current := NavLevel.ofItems es,
    others := s.current :: s.others,
    filter := none }

/-- Modelled from the spec: `DirStack::pop` removes the top level if more than
one remains; a no-op at the root. -/
def DirStack.pop (s : DirStack) : DirStack :=
  match s.others with
  | [] => s
  | l :: rest => { s with current := l, others := rest }

/-- Modelled from the spec: `DirStack::jump_forward` - with a filter active,
move the selection of the top level to the next match, cyclically. -/
def DirStack.jump_forward (s : DirStack) : DirStack :=
  match s.filter with
  | none => s
  | some f => { s with current := s.current.jumpFwd f }

/-- Modelled from the spec: `DirStack::jump_back` - with a filter active, move
the selection of the top level to the previous match, cyclically. -/
def DirStack.jump_back (s : DirStack) : DirStack :=
  match s.filter with
  | none => s
  | some f => { s with current := s.current.jumpBack f }

/-- The per-domain position state machine of the albums screen, from
`src/ui/screens/albums.rs` (`enum CurrentPosition`): at Album scope, or at Song
scope inside a chosen album. -/
inductive CurrentPosition where
  | Album
  | Song (album : String)
deriving DecidableEq

/-- Severity of a status message, from the ui module (variants as used by the
sources). -/
inductive Level where
  | Info
  | Warn
  | Error
deriving DecidableEq

/-- A status message shown to the user, from the ui module as used by the
sources. -/
structure StatusMessage where
  message : String
  level : Level
deriving DecidableEq

/-- The shared ui state as consulted by the albums screen: the status-message
slot. -/
structure Shared where
  status_message : Option StatusMessage
deriving DecidableEq

/-- Result of handling one key event, from the ui module as used by the
sources. -/
inductive KeyHandleResult where
  | SkipRender
  | RenderRequested
  | KeyNotHandled
deriving DecidableEq

/-- The albums screen state, from `src/ui/screens/albums.rs`
(`struct AlbumsScreen`). -/
structure AlbumsScreen where
  stack : DirStack
  position : CurrentPosition
  filter_input_mode : Bool
deriving DecidableEq

/-- Fetching the title entries of an album, from `src/ui/screens/albums.rs`
(`impl Position<Album>`, `fn fetch`): list the "title" tag filtered by the
album; a `None` listing yields the empty entry list. -/
def fetch_album (client : Client) (value : String) : Res (List StringOrSong) := do
  let r ← client.list_tag "title" (some [⟨"album", value⟩])
  pure (match r with
    | none => []
    | some v => v.map StringOrSong.Song)

/-- Fetching the song for a title within an album, from
`src/ui/screens/albums.rs` (`impl Position<Song>`, `fn fetch`): find by title
and album, default a `None` result to the empty song list, then index element 0
- which panics when the list is empty. -/
def fetch_song (client : Client) (album value : String) : Res MpdSong := do
  let r ← client.find [⟨"title", value⟩, ⟨"album", album⟩]
  let res := r.getD []
  match res with
  | [] => Except.error RErr.panic
  | s :: _ => pure s

/-- Enqueueing the song for a title within an album, from
`src/ui/screens/albums.rs` (`impl Position<Song>`, `fn add_to_queue`). -/
def add_to_queue (client : Client) (album value : String) : Res Unit :=
  client.find_add [⟨"title", value⟩, ⟨"album", album⟩]

/-- Preparing the prefetch-slot content for the currently selected entry, from
`src/ui/screens/albums.rs` (`AlbumsScreen::prepare_preview`): require a
selection (context error otherwise), index the current level's entries (a panic
if out of bounds), then fetch according to the current position. -/
def prepare_preview (self : AlbumsScreen) (client : Client) : Res Preview :=
  match self.stack.current.selected with
  | none => Except.error (RErr.e "Expected an item to be selected")
  | some idx =>
    match self.stack.current.items.get? idx with
    | none => Except.error RErr.panic
    | some cur =>
      match self.position with
      | CurrentPosition.Album => do
          let vs ← fetch_album client cur.to_current_value
          pure (Preview.titles vs)
      | CurrentPosition.Song album => do
          let s ← fetch_song client album cur.to_current_value
          pure (Preview.song s)

/-- Recompute the prefetch slot after a mutation and request a render: the
shared tail of the navigation arms of `AlbumsScreen::handle_action`
(`self.stack.next = self.prepare_preview(client, app).await.context(...)?`). -/
def storePreview (self : AlbumsScreen) (client : Client) (shared : Shared) :
    Res (AlbumsScreen × Shared × KeyHandleResult) := do
  let pv ← Res.context (prepare_preview self client) "Cannot prepare preview"
  pure ({ self with stack := { self.stack with next := some pv } }, shared,
    KeyHandleResult.RenderRequested)

/-- Screen setup, from `src/ui/screens/albums.rs` (`AlbumsScreen::before_show`):
list the distinct "album" tag values; on `Some`, reseed the stack with container
entries, reset the position to Album scope and fill the prefetch slot; on
`None`, leave the state alone and set a status message. -/
def before_show (self : AlbumsScreen) (client : Client) (shared : Shared) :
    Res (AlbumsScreen × Shared) := do
  let r ← Res.context (client.list_tag "album" none) "Cannot list tags"
  match r with
  | some result =>
      let self := { self with
        stack := DirStack.new (result.map StringOrSong.Dir) self.stack.viewport,
        position := CurrentPosition.Album }
      let pv ← Res.context (prepare_preview self client) "Cannot prepare preview"
      pure ({ self with stack := { self.stack with next := some pv } }, shared)
  | none =>
      pure (self,
        { shared with
          status_message := some { message := "No albums found!", level := Level.Info } })

/-- The filter-entry branch of `AlbumsScreen::handle_action` (the
`self.filter_input_mode` arm): characters extend the filter, Backspace removes
its last character, Enter leaves the mode and jumps forward, Esc leaves the
mode and clears the filter; any other key skips rendering. -/
def handleFilterInput (self : AlbumsScreen) (event : KeyEvent) (shared : Shared) :
    Res (AlbumsScreen × Shared × KeyHandleResult) :=
  match event.code with
  | KeyCode.Char c =>
      let stack := { self.stack with filter := self.stack.filter.map (fun f => f.push c) }
      Except.ok ({ self with stack := stack }, shared, KeyHandleResult.RenderRequested)
  | KeyCode.Backspace =>
      let stack := { self.stack with filter := self.stack.filter.map (fun f => f.dropRight 1) }
      Except.ok ({ self with stack := stack }, shared, KeyHandleResult.RenderRequested)
  | KeyCode.Enter =>
      Except.ok ({ self with filter_input_mode := false, stack := self.stack.jump_forward },
        shared, KeyHandleResult.RenderRequested)
  | KeyCode.Esc =>
      Except.ok ({ self with
                   filter_input_mode := false,
                   stack := { self.stack with filter := none } },
        shared, KeyHandleResult.RenderRequested)
  | _ => Except.ok (self, shared, KeyHandleResult.SkipRender)

/-- The common-navigation arms of `AlbumsScreen::handle_action`, one per
`CommonAction` arm of the source match; the final wildcard covers the variants
for which the source match has no arm. On `Bottom` and `Top` the source calls
`prepare_preview` but drops its value instead of storing it in `stack.next`,
and that is embedded as written. -/
def handleNav (self : AlbumsScreen) (client : Client) (shared : Shared) :
    CommonAction → Res (AlbumsScreen × Shared × KeyHandleResult)
  | CommonAction.DownHalf =>
      storePreview { self with stack := self.stack.next_half_viewport } client shared
  | CommonAction.UpHalf =>
      storePreview { self with stack := self.stack.prev_half_viewport } client shared
  | CommonAction.Up =>
      storePreview { self with stack := self.stack.prevOne } client shared
  | CommonAction.Down =>
      storePreview { self with stack := self.stack.nextOne } client shared
  | CommonAction.Bottom => do
      let self := { self with stack := self.stack.lastOne }
      let _ ← prepare_preview self client
      Except.ok (self, shared, KeyHandleResult.RenderRequested)
  | CommonAction.Top => do
      let self := { self with stack := self.stack.firstOne }
      let _ ← prepare_preview self client
      Except.ok (self, shared, KeyHandleResult.RenderRequested)
  | CommonAction.Right =>
      match self.stack.current.selected with
      | none => Except.error (RErr.e "Expected an item to be selected")
      | some idx =>
        match self.stack.current.items.get? idx with
        | none => Except.error RErr.panic
        | some item =>
          let current := item.to_current_value
          match self.position with
          | CurrentPosition.Album => do
              let es ← fetch_album client current
              storePreview
                { self with
                  stack := self.stack.push es,
                  position := CurrentPosition.Song current } client shared
          | CurrentPosition.Song album => do
              let _ ← add_to_queue client album current
              let msg := "'" ++ current ++ "' from album '" ++ album ++ "' added to queue"
              let shared :=
                { shared with status_message := some { message := msg, level := Level.Info } }
              storePreview { self with position := CurrentPosition.Song album } client shared
  | CommonAction.Left =>
      storePreview
        { self with
          stack := self.stack.pop,
          position := CurrentPosition.Album } client shared
  | CommonAction.EnterSearch =>
      Except.ok ({ self with
                   filter_input_mode := true,
                   stack := { self.stack with filter := some "" } },
        shared, KeyHandleResult.RenderRequested)
  | CommonAction.NextResult =>
      Except.ok ({ self with stack := self.stack.jump_forward }, shared,
        KeyHandleResult.RenderRequested)
  | CommonAction.PreviousResult =>
      Except.ok ({ self with stack := self.stack.jump_back }, shared,
        KeyHandleResult.RenderRequested)
  | _ => Except.ok (self, shared, KeyHandleResult.SkipRender)

/-- Key handling of the albums screen, from `src/ui/screens/albums.rs`
(`AlbumsScreen::handle_action`): the filter-entry mode captures raw keys;
otherwise the screen-specific table is consulted first (any hit skips
rendering, the `AlbumsActions` enum being empty), then the common-navigation
table; a miss in both yields `KeyNotHandled`. -/
def handle_action (self : AlbumsScreen) (event : KeyEvent) (client : Client)
    (keybinds : KeyConfig) (shared : Shared) :
    Res (AlbumsScreen × Shared × KeyHandleResult) :=
  if self.filter_input_mode then
    handleFilterInput self event shared
  else
    match mapGet keybinds.albums (keyOf event) with
    | some _ => Except.ok (self, shared, KeyHandleResult.SkipRender)
    | none =>
      match mapGet keybinds.navigation (keyOf event) with
      | some action => handleNav self client shared action
      | none => Except.ok (self, shared, KeyHandleResult.KeyNotHandled)

/-- Outcome of full key resolution across the three scope tables. -/
inductive Resolved (σ : Type) where
  | screen (a : σ)
  | nav (a : CommonAction)
  | global (a : GlobalAction)
  | unhandled
deriving DecidableEq

/-- Modelled from the spec: the ui dispatcher that falls back to the global
table when a screen's handler reports `KeyNotHandled` is outside the verified
subset; per the spec, resolution consults the screen-specific table, then the
common-navigation table, then the global table, first match winning. -/
def resolve {σ : Type} (sc : List (Key × σ)) (nv : List (Key × CommonAction))
    (gl : List (Key × GlobalAction)) (k : Key) : Resolved σ :=
  match mapGet sc k with
  | some a => Resolved.screen a
  | none =>
    match mapGet nv k with
    | some a => Resolved.nav a
    | none =>
      match mapGet gl k with
      | some a => Resolved.global a
      | none => Resolved.unhandled

/-- Decidable equality of results, for evaluating the embedding on concrete
inputs. -/
instance {ε α : Type} [DecidableEq ε] [DecidableEq α] : DecidableEq (Except ε α) := fun a b =>
  match a, b with
  | Except.ok x, Except.ok y =>
    if h : x = y then isTrue (congrArg Except.ok h)
    else isFalse (fun hc => h (Except.ok.inj hc))
  | Except.error x, Except.error y =>
    if h : x = y then isTrue (congrArg Except.error h)
    else isFalse (fun hc => h (Except.error.inj hc))
  | Except.ok _, Except.error _ => isFalse (fun hc => Except.noConfusion hc)
  | Except.error _, Except.ok _ => isFalse (fun hc => Except.noConfusion hc)

/-- The index of the first entry whose display text matches the filter; the
reference notion for checking filter-commit behaviour. -/
def firstMatchIdx (items : List StringOrSong) (f : String) : Option Nat :=
  items.findIdx? (filterMatches f)

/-- The runtime form of the default key configuration. -/
def kbDefault : KeyConfig := keyConfigFrom defaultKeyConfigFile

/-- A concrete test client: a library with albums "A" (titles "t1", "t2") and
"B" (title "u1"), and a find call that always locates one song. -/
def clientA : Client where
  list_tag := fun tag fs =>
    if tag = "album" then Except.ok (some ["A", "B"])
    else match fs with
      | some [⟨"album", "A"⟩] => Except.ok (some ["t1", "t2"])
      | some [⟨"album", "B"⟩] => Except.ok (some ["u1"])
      | _ => Except.ok none
  find := fun _ => Except.ok (some [⟨"f", "t", "A"⟩])
  find_add := fun _ => Except.ok ()

/-- A concrete test client whose find call reports no match. -/
def clientNoFind : Client where
  list_tag := clientA.list_tag
  find := fun _ => Except.ok none
  find_add := fun _ => Except.ok ()

/-- A concrete test client whose album listing reports no albums. -/
def clientNoAlbums : Client where
  list_tag := fun _ _ => Except.ok none
  find := fun _ => Except.ok none
  find_add := fun _ => Except.ok ()

/-- A concrete albums screen whose root level is empty. -/
def scEmpty : AlbumsScreen :=
  { stack := DirStack.new [] 10, position := CurrentPosition.Album,
    filter_input_mode := false }

/-- A concrete albums screen showing the two albums of `clientA`, "A" selected,
with the prefetch slot holding the preview of "A". -/
def c2Screen : AlbumsScreen :=
  { stack := { current := ⟨[StringOrSong.Dir "A", StringOrSong.Dir "B"], some 0⟩,
               others := [],
               filter := none,
               next := some (Preview.titles [StringOrSong.Song "t1", StringOrSong.Song "t2"]),
               viewport := 10 },
    position := CurrentPosition.Album, filter_input_mode := false }

/-- The state `c2Screen` reaches on a Bottom jump: selection moved to the last
entry, everything else untouched. -/
def c2Post : AlbumsScreen := { c2Screen with stack := c2Screen.stack.lastOne }

/-- The state `c2Screen` reaches on a descend into album "A" against
`clientA`. -/
def c3Post : AlbumsScreen :=
  { stack := { current := ⟨[StringOrSong.Song "t1", StringOrSong.Song "t2"], some 0⟩,
               others := [⟨[StringOrSong.Dir "A", StringOrSong.Dir "B"], some 0⟩],
               filter := none, next := some (Preview.song ⟨"f", "t", "A"⟩), viewport := 10 },
    position := CurrentPosition.Song "A", filter_input_mode := false }

/-- A concrete albums screen in filter-entry mode with filter "ab": matches sit
at indices 0 and 2, the selection sits between them at index 1. -/
def c4Screen : AlbumsScreen :=
  { stack := { current := ⟨[StringOrSong.Dir "ab", StringOrSong.Dir "x", StringOrSong.Dir "ab2"],
                           some 1⟩,
               others := [], filter := some "ab", next := none, viewport := 10 },
    position := CurrentPosition.Album, filter_input_mode := true }

/-- The state `c4Screen` reaches when the filter is committed: out of
filter-entry mode, selection on index 2. -/
def c4Post : AlbumsScreen :=
  { c4Screen with
    filter_input_mode := false,
    stack := { c4Screen.stack with
               current := { c4Screen.stack.current with selected := some 2 } } }

/-- A variant of `c4Screen` with the selection on the last entry, so that a
forward jump has to wrap. -/
def c4WrapScreen : AlbumsScreen :=
  { c4Screen with
    stack := { c4Screen.stack with
               current := { c4Screen.stack.current with selected := some 2 } } }

/-- A trivially succeeding ui-configuration conversion for concrete runs. -/
def uiOk : Option Unit → Res Unit := fun _ => Except.ok ()

/-- An on-file key configuration with no bindings at all. -/
def emptyKeyFile : KeyConfigFile :=
  { global := [], navigation := [], albums := [], artists := [], directories := [],
    playlists := [], logs := [], queue := [] }

/-- A concrete on-file configuration with a 30 ms status-update interval. -/
def c10File : ConfigFile :=
  { address := "127.0.0.1:6600", volume_step := 5, status_update_interval_ms := some 30,
    keybinds := emptyKeyFile, ui := none }

/-- The runtime configuration obtained from `c10File`. -/
def c10Config : Config :=
  { address := "127.0.0.1:6600", volume_step := 5,
    keybinds := keyConfigFrom emptyKeyFile,
    status_update_interval_ms := some 100, ui := () }

/-- A scope-table content in which two actions claim the Enter pair, written in
one possible iteration order: Confirm first, FocusInput second. -/
def collideCF : List (CommonAction × List Key) :=
  [(CommonAction.Confirm, [⟨KeyCode.Enter, KeyModifiers.NONE⟩]),
   (CommonAction.FocusInput, [⟨KeyCode.Enter, KeyModifiers.NONE⟩])]

/-- The same scope-table content as `collideCF` in the opposite iteration
order. -/
def collideFC : List (CommonAction × List Key) :=
  [(CommonAction.FocusInput, [⟨KeyCode.Enter, KeyModifiers.NONE⟩]),
   (CommonAction.Confirm, [⟨KeyCode.Enter, KeyModifiers.NONE⟩])]

/-- A scope-table content in which the Enter pair is claimed by exactly one
action. -/
def uniqueCF : List (CommonAction × List Key) :=
  [(CommonAction.Confirm, [⟨KeyCode.Enter, KeyModifiers.NONE⟩]),
   (CommonAction.FocusInput, [⟨KeyCode.Char 'i', KeyModifiers.NONE⟩])]

/-! Theorems. -/

/-- C10: converting a `ConfigFile` into the runtime `Config` maps
`status_update_interval_ms = Some v` to `Some (max v 100)` and `None` to
`None`, so every configured status-refresh interval consumed by the core is at
least 100 milliseconds. -/
theorem c10_interval_clamp (uiConv : Option Unit → Res Unit) (value : ConfigFile)
    (c : Config) (h : config_try_from uiConv value = Except.ok c) :
    c.status_update_interval_ms = value.status_update_interval_ms.map (fun v => max v 100)
    ∧ (∀ v, value.status_update_interval_ms = some v →
        c.status_update_interval_ms = some (max v 100))
    ∧ (value.status_update_interval_ms = none → c.status_update_interval_ms = none)
    ∧ (∀ x, c.status_update_interval_ms = some x → 100 ≤ x) := by
  unfold config_try_from at h
  cases huc : uiConv value.ui with
  | error e => rw [huc] at h; exact absurd h (by simp [Bind.bind, Except.bind])
  | ok u =>
    rw [huc] at h
    simp only [Bind.bind, Except.bind, pure, Except.pure, Except.ok.injEq] at h
    subst h
    refine ⟨rfl, ?_, ?_, ?_⟩
    · intro v hv; simp [hv]
    · intro hv; simp [hv]
    · intro x hx
      cases hv : value.status_update_interval_ms with
      | none => simp [hv] at hx
      | some v =>
        simp only [hv, Option.map_some', Option.some.injEq] at hx
        have hge := Nat.le_max_right v 100
        omega

/-- Witness for C10 at the concrete configuration `c10File`. -/
theorem c10_interval_clamp_wit :
    c10Config.status_update_interval_ms = some (max 30 100) ∧ 100 ≤ 100 :=
  ⟨(c10_interval_clamp uiOk c10File c10Config (by decide)).2.1 30 (by decide),
   le_refl 100⟩

/-- C8: `Position<Song>::fetch` returns the first song of the find result; when
the find result is absent or empty the element-0 access is out of bounds and
the operation panics instead of returning an error value, so a nonempty find
result is a precondition for the operation to complete. -/
theorem c8_fetch_song_first (client : Client) (album value : String) :
    (∀ s rest, client.find [⟨"title", value⟩, ⟨"album", album⟩]
        = Except.ok (some (s :: rest)) →
      fetch_song client album value = Except.ok s)
    ∧ (client.find [⟨"title", value⟩, ⟨"album", album⟩] = Except.ok (some []) →
      fetch_song client album value = Except.error RErr.panic)
    ∧ (client.find [⟨"title", value⟩, ⟨"album", album⟩] = Except.ok none →
      fetch_song client album value = Except.error RErr.panic) := by
  refine ⟨?_, ?_, ?_⟩
  · intro s rest hf
    simp [fetch_song, Bind.bind, Except.bind, hf, pure, Except.pure]
  · intro hf
    simp [fetch_song, Bind.bind, Except.bind, hf]
  · intro hf
    simp [fetch_song, Bind.bind, Except.bind, hf]

/-- Witness for C8: against `clientA` the first found song is returned; against
`clientNoFind` the empty result panics. -/
theorem c8_fetch_song_first_wit :
    fetch_song clientA "A" "t" = Except.ok ⟨"f", "t", "A"⟩
    ∧ fetch_song clientNoFind "A" "t" = Except.error RErr.panic :=
  ⟨(c8_fetch_song_first clientA "A" "t").1 ⟨"f", "t", "A"⟩ [] (by decide),
   (c8_fetch_song_first clientNoFind "A" "t").2.2 (by decide)⟩

/-- C6: when the top level is empty so no entry is selected, preparing the
preview and descending both return the context-carrying error "Expected an item
to be selected" as an explicit failure result. -/
theorem c6_empty_selection_error (self : AlbumsScreen) (client : Client)
    (event : KeyEvent) (keybinds : KeyConfig) (shared : Shared)
    (hsel : self.stack.current.selected = none) :
    prepare_preview self client = Except.error (RErr.e "Expected an item to be selected")
    ∧ (self.filter_input_mode = false →
       mapGet keybinds.albums (keyOf event) = none →
       mapGet keybinds.navigation (keyOf event) = some CommonAction.Right →
       handle_action self event client keybinds shared
         = Except.error (RErr.e "Expected an item to be selected")) := by
  constructor
  · simp [prepare_preview, hsel]
  · intro hm ha hn
    simp [handle_action, hm, ha, hn, handleNav, hsel]

/-- Witness for C6 at the concrete empty screen `scEmpty`. -/
theorem c6_empty_selection_error_wit :
    prepare_preview scEmpty clientA = Except.error (RErr.e "Expected an item to be selected")
    ∧ handle_action scEmpty ⟨KeyCode.Char 'l', KeyModifiers.NONE⟩ clientA kbDefault ⟨none⟩
      = Except.error (RErr.e "Expected an item to be selected") := by
  have h := c6_empty_selection_error scEmpty clientA ⟨KeyCode.Char 'l', KeyModifiers.NONE⟩
    kbDefault ⟨none⟩ (by decide)
  exact ⟨h.1, h.2 (by decide) (by decide) (by decide)⟩

/-- Filtering out a key removes every hit for that key. -/
theorem find?_filter_ne_self {α : Type} (m : List (Key × α)) (k : Key) :
    (m.filter (fun p => p.1 ≠ k)).find? (fun p => p.1 = k) = none := by
  rw [List.find?_eq_none]
  intro x hx
  have hmem := List.of_mem_filter hx
  simp at hmem ⊢
  exact hmem

/-- Filtering out one key leaves lookups of any other key unchanged. -/
theorem find?_filter_ne_other {α : Type} (m : List (Key × α)) (k k' : Key) (hk : k' ≠ k) :
    (m.filter (fun p => p.1 ≠ k)).find? (fun p => p.1 = k')
      = m.find? (fun p => p.1 = k') := by
  induction m with
  | nil => rfl
  | cons p t ih =>
    by_cases hpk : p.1 = k
    · have hp' : decide (p.1 = k') = false := by
        rw [hpk]
        simp
        exact fun h => hk h.symm
      rw [List.filter_cons_of_neg (by simp [hpk]), ih, List.find?_cons, hp']
    · rw [List.filter_cons_of_pos (by simp [hpk]), List.find?_cons, List.find?_cons]
      cases hp' : decide (p.1 = k') with
      | true => rfl
      | false => exact ih

/-- Looking up after a replacing insertion: the inserted key yields the new
action, all other keys are unaffected. -/
theorem mapGet_mapInsert {α : Type} (m : List (Key × α)) (k k' : Key) (a : α) :
    mapGet (mapInsert m k a) k' = if k' = k then some a else mapGet m k' := by
  unfold mapGet mapInsert
  rw [List.find?_append]
  by_cases hk : k' = k
  · subst hk
    rw [find?_filter_ne_self]
    simp [List.find?]
  · rw [find?_filter_ne_other m k k' hk]
    have h2 : (([(k, a)] : List (Key × α)).find? (fun p => p.1 = k')) = none := by
      rw [List.find?_eq_none]
      intro x hx
      simp at hx
      subst hx
      simp
      exact fun h => hk h.symm
    cases hf : m.find? (fun p => decide (p.1 = k')) with
    | some q => simp [Option.or, hk]
    | none => simp [hf, h2, Option.or, hk]

/-- Folding replacing insertions over a pair sequence: lookup returns the last
inserted action for the key when the sequence claims it, and falls back to the
initial map otherwise. -/
theorem mapGet_foldl_mapInsert {α : Type} (l : List (Key × α)) (m₀ : List (Key × α)) (k : Key) :
    mapGet (l.foldl (fun m kv => mapInsert m kv.1 kv.2) m₀) k
      = ((l.reverse.find? (fun kv => kv.1 = k)).map (fun kv => kv.2)).or (mapGet m₀ k) := by
  induction l generalizing m₀ with
  | nil => simp
  | cons kv t ih =>
    rw [List.foldl_cons, ih, List.reverse_cons, List.find?_append]
    cases hf : t.reverse.find? (fun kv => decide (kv.1 = k)) with
    | some q => simp [Option.or]
    | none =>
      simp only [Option.map_none', Option.none_or]
      rw [mapGet_mapInsert]
      by_cases hk : k = kv.1
      · have hd : decide (kv.1 = k) = true := by simp [hk.symm]
        simp [List.find?, hd, hk, Option.or]
      · have hd : decide (kv.1 = k) = false := by simp; exact fun h => hk h.symm
        simp [List.find?, hd, hk, Option.or]

/-- Keys stay duplicate-free under a replacing insertion. -/
theorem nodup_keys_mapInsert {α : Type} (m : List (Key × α)) (k : Key) (a : α)
    (h : (m.map Prod.fst).Nodup) : ((mapInsert m k a).map Prod.fst).Nodup := by
  unfold mapInsert
  rw [List.map_append, List.nodup_append]
  refine ⟨h.sublist (List.Sublist.map _ (List.filter_sublist m)), by simp, ?_⟩
  intro x hx hyx
  simp only [List.map_cons, List.map_nil, List.mem_singleton] at hyx
  subst hyx
  obtain ⟨p, hp, rfl⟩ := List.mem_map.mp hx
  have hmem := List.of_mem_filter hp
  simp_all

/-- Keys of a map built by folding replacing insertions are duplicate-free. -/
theorem nodup_keys_foldl_mapInsert {α : Type} (l : List (Key × α)) (m₀ : List (Key × α))
    (h : (m₀.map Prod.fst).Nodup) :
    (((l.foldl (fun m kv => mapInsert m kv.1 kv.2) m₀)).map Prod.fst).Nodup := by
  induction l generalizing m₀ with
  | nil => exact h
  | cons kv t ih => exact ih _ (nodup_keys_mapInsert _ _ _ h)

/-- Lookup in a built table equals a backwards search of the flattened pair
sequence: the overwriting collect keeps, for each key, the pair its input
yielded last. -/
theorem mapGet_invert_map_eq {α : Type} (v : List (α × List Key)) (k : Key) :
    mapGet (invert_map v) k
      = ((flatBinds v).reverse.find? (fun kv => kv.1 = k)).map (fun kv => kv.2) := by
  unfold invert_map
  rw [mapGet_foldl_mapInsert]
  simp [mapGet]

/-- Membership in the flattened pair sequence: exactly the pairs some entry of
the table claims. -/
theorem mem_flatBinds {α : Type} (v : List (α × List Key)) (kv : Key × α) :
    kv ∈ flatBinds v ↔ ∃ p ∈ v, p.1 = kv.2 ∧ kv.1 ∈ p.2 := by
  obtain ⟨kk, ka⟩ := kv
  unfold flatBinds
  rw [List.mem_flatMap]
  constructor
  · rintro ⟨p, hp, hkv⟩
    obtain ⟨k', hk', hpair⟩ := List.mem_map.mp hkv
    cases hpair
    exact ⟨p, hp, rfl, hk'⟩
  · rintro ⟨p, hp, ha, hk⟩
    exact ⟨p, hp, List.mem_map.mpr ⟨kk, hk, by rw [ha]⟩⟩

/-- C5 counterexample: the two lists are permutations of each other, so they
are iteration orders of one and the same scope map (a Rust `HashMap` fixes no
entry order), in which Confirm is registered before FocusInput for the Enter
pair; yet the tables built from them answer differently for that pair. The
winner of a cross-action collision therefore depends on the unspecified
iteration order, and the conversion does not guarantee that the last-registered
binding wins. -/
theorem c5_order_dependent_cex :
    collideFC.Perm collideCF
    ∧ mapGet (invert_map collideCF) ⟨KeyCode.Enter, KeyModifiers.NONE⟩
      = some CommonAction.FocusInput
    ∧ mapGet (invert_map collideFC) ⟨KeyCode.Enter, KeyModifiers.NONE⟩
      = some CommonAction.Confirm
    ∧ some CommonAction.FocusInput ≠ some CommonAction.Confirm :=
  ⟨List.Perm.swap _ _ _, by decide, by decide, by decide⟩

/-- C5 (amended): building a runtime key table maps each (key, modifiers) pair
within a scope to exactly one action (the built key list is duplicate-free),
and lookup of a pair yields an action some entry claims for it - absent exactly
when no entry claims the pair, and equal to the unique claimant whenever only
one entry claims it, for every iteration order. Which claimant wins a
cross-action collision depends on the map's unspecified iteration order. A user
binding for a pair replaces, rather than adds to, the default binding because
the runtime tables are built from the configuration file's own scope maps
alone; defaults are not merged in. -/
theorem c5_pair_maps_to_one_claimant {α : Type} (v : List (α × List Key)) (k : Key) :
    ((invert_map v).map Prod.fst).Nodup
    ∧ (∀ a, mapGet (invert_map v) k = some a → ∃ p ∈ v, p.1 = a ∧ k ∈ p.2)
    ∧ (mapGet (invert_map v) k = none ↔ ∀ p ∈ v, k ∉ p.2)
    ∧ (∀ a, (∃ p ∈ v, p.1 = a ∧ k ∈ p.2) → (∀ p ∈ v, k ∈ p.2 → p.1 = a) →
        mapGet (invert_map v) k = some a)
    ∧ (∀ (uiConv : Option Unit → Res Unit) (cfgFile : ConfigFile) (c : Config),
        config_try_from uiConv cfgFile = Except.ok c →
        c.keybinds = keyConfigFrom cfgFile.keybinds) := by
  refine ⟨nodup_keys_foldl_mapInsert _ _ (by simp), ?_, ?_, ?_, ?_⟩
  · intro a h
    rw [mapGet_invert_map_eq] at h
    obtain ⟨kv, hf, hkv2⟩ := Option.map_eq_some'.mp h
    have hkv1 : kv.1 = k := by simpa using List.find?_some hf
    have hmem : kv ∈ flatBinds v := List.mem_reverse.mp (List.mem_of_find?_eq_some hf)
    obtain ⟨p, hp, hpa, hpk⟩ := (mem_flatBinds v kv).mp hmem
    exact ⟨p, hp, hpa.trans hkv2, hkv1 ▸ hpk⟩
  · rw [mapGet_invert_map_eq, Option.map_eq_none', List.find?_eq_none]
    constructor
    · intro hnone p hp hk
      have : ((k, p.1) : Key × α) ∈ (flatBinds v).reverse :=
        List.mem_reverse.mpr ((mem_flatBinds v (k, p.1)).mpr ⟨p, hp, rfl, hk⟩)
      exact absurd (by simp : decide (((k, p.1) : Key × α).1 = k) = true) (hnone _ this)
    · intro hcl kv hkv
      have hmem := (mem_flatBinds v kv).mp (List.mem_reverse.mp hkv)
      obtain ⟨p, hp, hpa, hpk⟩ := hmem
      simp only [decide_eq_true_eq]
      intro hk
      exact hcl p hp (hk ▸ hpk)
  · intro a hex huniq
    obtain ⟨p0, hp0, hp0a, hp0k⟩ := hex
    rw [mapGet_invert_map_eq]
    cases hf : (flatBinds v).reverse.find? (fun kv => kv.1 = k) with
    | none =>
      exfalso
      have hnone := List.find?_eq_none.mp hf
      have : ((k, p0.1) : Key × α) ∈ (flatBinds v).reverse :=
        List.mem_reverse.mpr ((mem_flatBinds v (k, p0.1)).mpr ⟨p0, hp0, rfl, hp0k⟩)
      exact hnone _ this (by simp)
    | some kv =>
      have hkv1 : kv.1 = k := by simpa using List.find?_some hf
      have hmem : kv ∈ flatBinds v := List.mem_reverse.mp (List.mem_of_find?_eq_some hf)
      obtain ⟨p, hp, hpa, hpk⟩ := (mem_flatBinds v kv).mp hmem
      have : p.1 = a := huniq p hp (hkv1 ▸ hpk)
      simp [hpa ▸ this]
  · intro uiConv cfgFile c h
    unfold config_try_from at h
    cases huc : uiConv cfgFile.ui with
    | error e => rw [huc] at h; exact absurd h (by simp [Bind.bind, Except.bind])
    | ok u =>
      rw [huc] at h
      simp only [Bind.bind, Except.bind, pure, Except.pure, Except.ok.injEq] at h
      subst h
      rfl

/-- Witness for C5 (amended): with a single claimant the built table resolves
Enter to it (regardless of order); at the colliding table the winner is still
one of the claimants; and a concrete configuration's runtime tables come from
its own bindings alone. -/
theorem c5_pair_maps_to_one_claimant_wit :
    mapGet (invert_map uniqueCF) ⟨KeyCode.Enter, KeyModifiers.NONE⟩
      = some CommonAction.Confirm
    ∧ (∃ p ∈ collideCF, p.1 = CommonAction.FocusInput
        ∧ (⟨KeyCode.Enter, KeyModifiers.NONE⟩ : Key) ∈ p.2)
    ∧ c10Config.keybinds = keyConfigFrom c10File.keybinds := by
  refine ⟨?_, ?_, ?_⟩
  · refine (c5_pair_maps_to_one_claimant uniqueCF ⟨KeyCode.Enter, KeyModifiers.NONE⟩).2.2.2.1
      CommonAction.Confirm
      ⟨(CommonAction.Confirm, [⟨KeyCode.Enter, KeyModifiers.NONE⟩]), by decide, rfl, by decide⟩
      ?_
    intro p hp hk
    fin_cases hp
    · rfl
    · exact absurd hk (by decide)
  · exact (c5_pair_maps_to_one_claimant collideCF ⟨KeyCode.Enter, KeyModifiers.NONE⟩).2.1
      CommonAction.FocusInput (by decide)
  · exact (c5_pair_maps_to_one_claimant collideCF ⟨KeyCode.Enter, KeyModifiers.NONE⟩).2.2.2.2
      uiOk c10File c10Config (by decide)

/-- C1: key resolution consults the screen-specific table first, then the
common-navigation table, then the global table; the first table containing the
(key, modifiers) pair determines the action and later tables are not consulted;
when no table contains it, resolution is unhandled. Grounding in the albums
screen: its handler dispatches the screen table first, then the navigation
table, and reports `KeyNotHandled` exactly when both miss. -/
theorem c1_resolution_order {σ : Type} (sc : List (Key × σ)) (nv : List (Key × CommonAction))
    (gl : List (Key × GlobalAction)) (k : Key) :
    (∀ a, mapGet sc k = some a → resolve sc nv gl k = Resolved.screen a)
    ∧ (mapGet sc k = none → ∀ a, mapGet nv k = some a →
        resolve sc nv gl k = Resolved.nav a)
    ∧ (mapGet sc k = none → mapGet nv k = none → ∀ a, mapGet gl k = some a →
        resolve sc nv gl k = Resolved.global a)
    ∧ (mapGet sc k = none → mapGet nv k = none → mapGet gl k = none →
        resolve sc nv gl k = Resolved.unhandled)
    ∧ (∀ (self : AlbumsScreen) (event : KeyEvent) (client : Client) (keybinds : KeyConfig)
        (shared : Shared), self.filter_input_mode = false → keyOf event = k →
        mapGet keybinds.albums k = none →
        (∀ a, mapGet keybinds.navigation k = some a →
          handle_action self event client keybinds shared = handleNav self client shared a)
        ∧ (mapGet keybinds.navigation k = none →
          handle_action self event client keybinds shared
            = Except.ok (self, shared, KeyHandleResult.KeyNotHandled))) := by
  refine ⟨?_, ?_, ?_, ?_, ?_⟩
  · intro a ha
    simp [resolve, ha]
  · intro hs a ha
    simp [resolve, hs, ha]
  · intro hs hn a ha
    simp [resolve, hs, hn, ha]
  · intro hs hn hg
    simp [resolve, hs, hn, hg]
  · intro self event client keybinds shared hm hk ha
    subst hk
    constructor
    · intro a hn
      simp [handle_action, hm, ha, hn]
    · intro hn
      simp [handle_action, hm, ha, hn]

/-- Witness for C1: against the default tables, Enter in the queue scope hits
the screen table (Play) even though the navigation table also binds Enter
(Confirm); 'l' falls through an empty screen table to the navigation table;
'q' falls through both to the global table; a key bound nowhere is unhandled,
and on the albums screen the handler then reports `KeyNotHandled`. -/
theorem c1_resolution_order_wit :
    resolve kbDefault.queue kbDefault.navigation kbDefault.global
      ⟨KeyCode.Enter, KeyModifiers.NONE⟩ = Resolved.screen QueueActions.Play
    ∧ resolve kbDefault.albums kbDefault.navigation kbDefault.global
      ⟨KeyCode.Char 'l', KeyModifiers.NONE⟩ = Resolved.nav CommonAction.Right
    ∧ resolve kbDefault.albums kbDefault.navigation kbDefault.global
      ⟨KeyCode.Char 'q', KeyModifiers.NONE⟩ = Resolved.global GlobalAction.Quit
    ∧ resolve kbDefault.albums kbDefault.navigation kbDefault.global
      ⟨KeyCode.Char 'Q', KeyModifiers.SHIFT⟩ = Resolved.unhandled
    ∧ handle_action scEmpty ⟨KeyCode.Char 'Q', KeyModifiers.SHIFT⟩ clientA kbDefault ⟨none⟩
      = Except.ok (scEmpty, ⟨none⟩, KeyHandleResult.KeyNotHandled) := by
  refine ⟨?_, ?_, ?_, ?_, ?_⟩
  · exact (c1_resolution_order kbDefault.queue kbDefault.navigation kbDefault.global
      ⟨KeyCode.Enter, KeyModifiers.NONE⟩).1 QueueActions.Play (by decide)
  · exact (c1_resolution_order kbDefault.albums kbDefault.navigation kbDefault.global
      ⟨KeyCode.Char 'l', KeyModifiers.NONE⟩).2.1 (by decide) CommonAction.Right (by decide)
  · exact (c1_resolution_order kbDefault.albums kbDefault.navigation kbDefault.global
      ⟨KeyCode.Char 'q', KeyModifiers.NONE⟩).2.2.1 (by decide) (by decide)
      GlobalAction.Quit (by decide)
  · exact (c1_resolution_order kbDefault.albums kbDefault.navigation kbDefault.global
      ⟨KeyCode.Char 'Q', KeyModifiers.SHIFT⟩).2.2.2.1 (by decide) (by decide) (by decide)
  · exact ((c1_resolution_order kbDefault.albums kbDefault.navigation kbDefault.global
      ⟨KeyCode.Char 'Q', KeyModifiers.SHIFT⟩).2.2.2.2 scEmpty
      ⟨KeyCode.Char 'Q', KeyModifiers.SHIFT⟩ clientA kbDefault ⟨none⟩
      (by decide) (by decide) (by decide)).2 (by decide)

/-- C9: while filter-entry mode is active no key table is consulted and the
protocol client is never called (the outcome is independent of both); a
character is appended to the filter, Backspace removes its last character,
Enter leaves the mode and jumps forward to a match, and Esc leaves the mode and
clears the filter. -/
theorem c9_filter_mode (self : AlbumsScreen) (event : KeyEvent)
    (client client2 : Client) (keybinds keybinds2 : KeyConfig) (shared : Shared)
    (hm : self.filter_input_mode = true) :
    handle_action self event client keybinds shared
      = handle_action self event client2 keybinds2 shared
    ∧ (∀ c f, event.code = KeyCode.Char c → self.stack.filter = some f →
        handle_action self event client keybinds shared = Except.ok
          ({ self with stack := { self.stack with filter := some (f.push c) } }, shared,
            KeyHandleResult.RenderRequested))
    ∧ (∀ f, event.code = KeyCode.Backspace → self.stack.filter = some f →
        handle_action self event client keybinds shared = Except.ok
          ({ self with stack := { self.stack with filter := some (f.dropRight 1) } }, shared,
            KeyHandleResult.RenderRequested))
    ∧ (event.code = KeyCode.Enter →
        handle_action self event client keybinds shared = Except.ok
          ({ self with filter_input_mode := false, stack := self.stack.jump_forward },
            shared, KeyHandleResult.RenderRequested))
    ∧ (event.code = KeyCode.Esc →
        handle_action self event client keybinds shared = Except.ok
          ({ self with
             filter_input_mode := false,
             stack := { self.stack with filter := none } },
            shared, KeyHandleResult.RenderRequested)) := by
  refine ⟨?_, ?_, ?_, ?_, ?_⟩
  · simp [handle_action, hm]
  · intro c f hc hf
    simp [handle_action, hm, handleFilterInput, hc, hf]
  · intro f hc hf
    simp [handle_action, hm, handleFilterInput, hc, hf]
  · intro hc
    simp [handle_action, hm, handleFilterInput, hc]
  · intro hc
    simp [handle_action, hm, handleFilterInput, hc]

/-- Witness for C9 at the concrete filter-mode screen `c4Screen`: a character
extends the filter "ab" to "abc" regardless of which tables or client are in
play, and Esc clears it. -/
theorem c9_filter_mode_wit :
    handle_action c4Screen ⟨KeyCode.Char 'c', KeyModifiers.NONE⟩ clientA kbDefault ⟨none⟩
      = handle_action c4Screen ⟨KeyCode.Char 'c', KeyModifiers.NONE⟩ clientNoFind
          (keyConfigFrom emptyKeyFile) ⟨none⟩
    ∧ handle_action c4Screen ⟨KeyCode.Char 'c', KeyModifiers.NONE⟩ clientA kbDefault ⟨none⟩
      = Except.ok
          ({ c4Screen with stack := { c4Screen.stack with filter := some "abc" } }, ⟨none⟩,
            KeyHandleResult.RenderRequested)
    ∧ handle_action c4Screen ⟨KeyCode.Esc, KeyModifiers.NONE⟩ clientA kbDefault ⟨none⟩
      = Except.ok
          ({ c4Screen with
             filter_input_mode := false,
             stack := { c4Screen.stack with filter := none } }, ⟨none⟩,
            KeyHandleResult.RenderRequested) := by
  have h := c9_filter_mode c4Screen ⟨KeyCode.Char 'c', KeyModifiers.NONE⟩ clientA clientNoFind
    kbDefault (keyConfigFrom emptyKeyFile) ⟨none⟩ (by decide)
  have h2 := c9_filter_mode c4Screen ⟨KeyCode.Esc, KeyModifiers.NONE⟩ clientA clientNoFind
    kbDefault (keyConfigFrom emptyKeyFile) ⟨none⟩ (by decide)
  exact ⟨h.1, h.2.1 'c' "ab" rfl rfl, h2.2.2.2.2 rfl⟩

/-- C3: a descend (Right) at Album scope fetches the selected album's titles
via the client and pushes them as a new top level, transitioning to Song scope;
a descend at Song scope pushes nothing and changes no scope, instead adding the
selected song to the play queue (reporting it in the status message) and
remaining at Song scope. -/
theorem c3_descend (self : AlbumsScreen) (event : KeyEvent) (client : Client)
    (keybinds : KeyConfig) (shared : Shared) (idx : Nat) (item : StringOrSong)
    (hm : self.filter_input_mode = false)
    (ha : mapGet keybinds.albums (keyOf event) = none)
    (hn : mapGet keybinds.navigation (keyOf event) = some CommonAction.Right)
    (hs : self.stack.current.selected = some idx)
    (hi : self.stack.current.items.get? idx = some item) :
    (∀ s' sh' r, self.position = CurrentPosition.Album →
      handle_action self event client keybinds shared = Except.ok (s', sh', r) →
      s'.position = CurrentPosition.Song item.to_current_value
      ∧ s'.stack.others = self.stack.current :: self.stack.others
      ∧ (∃ es, fetch_album client item.to_current_value = Except.ok es
          ∧ s'.stack.current = NavLevel.ofItems es)
      ∧ r = KeyHandleResult.RenderRequested)
    ∧ (∀ alb s' sh' r, self.position = CurrentPosition.Song alb →
      handle_action self event client keybinds shared = Except.ok (s', sh', r) →
      s'.position = CurrentPosition.Song alb
      ∧ s'.stack.others = self.stack.others
      ∧ s'.stack.current = self.stack.current
      ∧ add_to_queue client alb item.to_current_value = Except.ok ()
      ∧ sh'.status_message = some
          { message := "'" ++ item.to_current_value ++ "' from album '" ++ alb
              ++ "' added to queue",
            level := Level.Info }
      ∧ r = KeyHandleResult.RenderRequested) := by
  obtain ⟨stk, pos, fim⟩ := self
  replace hm : fim = false := hm
  subst hm
  replace hs : stk.current.selected = some idx := hs
  replace hi : stk.current.items.get? idx = some item := hi
  constructor
  · intro s' sh' r hpos hrun
    replace hpos : pos = CurrentPosition.Album := hpos
    subst hpos
    simp only [handle_action, Bool.false_eq_true, if_false, ha, hn, handleNav, hs, hi] at hrun
    cases hfa : fetch_album client item.to_current_value with
    | error e =>
      rw [hfa] at hrun
      simp [Bind.bind, Except.bind] at hrun
    | ok es =>
      rw [hfa] at hrun
      simp only [Bind.bind, Except.bind, storePreview] at hrun
      cases hpv : Res.context
          (prepare_preview
            { stack := stk.push es,
              position := CurrentPosition.Song item.to_current_value,
              filter_input_mode := false } client)
          "Cannot prepare preview" with
      | error e => rw [hpv] at hrun; simp at hrun
      | ok pv =>
        rw [hpv] at hrun
        simp only [pure, Except.pure, Except.ok.injEq, Prod.mk.injEq] at hrun
        obtain ⟨hs', hsh', hr⟩ := hrun
        subst hs'
        exact ⟨rfl, rfl, ⟨es, rfl, rfl⟩, hr.symm⟩
  · intro alb s' sh' r hpos hrun
    replace hpos : pos = CurrentPosition.Song alb := hpos
    subst hpos
    simp only [handle_action, Bool.false_eq_true, if_false, ha, hn, handleNav, hs, hi] at hrun
    cases hq : add_to_queue client alb item.to_current_value with
    | error e =>
      rw [hq] at hrun
      simp [Bind.bind, Except.bind] at hrun
    | ok u =>
      rw [hq] at hrun
      simp only [Bind.bind, Except.bind, storePreview] at hrun
      cases hpv : Res.context
          (prepare_preview
            { stack := stk,
              position := CurrentPosition.Song alb,
              filter_input_mode := false } client)
          "Cannot prepare preview" with
      | error e => rw [hpv] at hrun; simp at hrun
      | ok pv =>
        rw [hpv] at hrun
        simp only [pure, Except.pure, Except.ok.injEq, Prod.mk.injEq] at hrun
        obtain ⟨hs', hsh', hr⟩ := hrun
        subst hs'
        subst hsh'
        exact ⟨rfl, rfl, rfl, rfl, rfl, hr.symm⟩

/-- Witness for C3: on `c2Screen` (Album scope, "A" selected) the Right key
against `clientA` pushes the fetched title level and moves to Song scope. -/
theorem c3_descend_wit :
    c3Post.position = CurrentPosition.Song "A"
    ∧ c3Post.stack.others = c2Screen.stack.current :: c2Screen.stack.others
    ∧ (∃ es, fetch_album clientA "A" = Except.ok es
        ∧ c3Post.stack.current = NavLevel.ofItems es) := by
  have h := (c3_descend c2Screen ⟨KeyCode.Char 'l', KeyModifiers.NONE⟩ clientA kbDefault
    ⟨none⟩ 0 (StringOrSong.Dir "A") (by decide) (by decide) (by decide) (by decide)
    (by decide)).1 c3Post ⟨none⟩ KeyHandleResult.RenderRequested (by decide) (by decide)
  exact ⟨h.1, h.2.1, h.2.2.1⟩

/-- A search over a contiguous index range finds the least index satisfying the
predicate. -/
theorem find?_range'_eq_some (p : Nat → Bool) (len a j : Nat) (h1 : a ≤ j)
    (h2 : j < a + len) (hj : p j = true)
    (hmin : ∀ i, a ≤ i → i < j → p i = false) :
    (List.range' a len).find? p = some j := by
  induction len generalizing a with
  | zero => omega
  | succ n ih =>
    rw [List.range'_succ, List.find?_cons]
    rcases Nat.eq_or_lt_of_le h1 with he | hlt
    · subst he
      rw [hj]
    · have hpa : p a = false := hmin a le_rfl hlt
      rw [hpa]
      exact ih (a + 1) hlt (by omega) (fun i hi1 hi2 => hmin i (by omega) hi2)

/-- A search over a contiguous index range containing no satisfying index
fails. -/
theorem find?_range'_eq_none (p : Nat → Bool) (a len : Nat)
    (h : ∀ i, a ≤ i → i < a + len → p i = false) :
    (List.range' a len).find? p = none := by
  rw [List.find?_eq_none]
  intro x hx
  have hm := List.mem_range'_1.mp hx
  simp [h x hm.1 hm.2]

/-- Forward-jump characterization, no-wrap case: when some entry strictly after
the selection matches, the jump lands on the least such index. -/
theorem jumpFwd_eq_of_fwd (l : NavLevel) (f : String) (sel j : Nat)
    (hs : l.selected = some sel) (hj1 : sel < j) (hj2 : j < l.items.length)
    (hmatch : filterMatches f (l.items.getD j (StringOrSong.Dir "")) = true)
    (hmin : ∀ i, sel < i → i < j →
      filterMatches f (l.items.getD i (StringOrSong.Dir "")) = false) :
    l.jumpFwd f = { l with selected := some j } := by
  unfold NavLevel.jumpFwd
  rw [hs]
  have hfind : (List.range' (sel + 1) (l.items.length - (sel + 1))).find?
      (fun i => filterMatches f (l.items.getD i (StringOrSong.Dir ""))) = some j :=
    find?_range'_eq_some _ _ _ j (by omega) (by omega) hmatch
      (fun i hi1 hi2 => hmin i (by omega) hi2)
  simp only [Option.getD_some]
  rw [hfind]

/-- Forward-jump characterization, wrap case: when nothing after the selection
matches, the jump wraps and lands on the least matching index overall. -/
theorem jumpFwd_eq_of_wrap (l : NavLevel) (f : String) (sel j : Nat)
    (hs : l.selected = some sel) (hsel : sel < l.items.length)
    (hafter : ∀ i, sel < i → i < l.items.length →
      filterMatches f (l.items.getD i (StringOrSong.Dir "")) = false)
    (hj1 : j ≤ sel)
    (hmatch : filterMatches f (l.items.getD j (StringOrSong.Dir "")) = true)
    (hmin : ∀ i, i < j →
      filterMatches f (l.items.getD i (StringOrSong.Dir "")) = false) :
    l.jumpFwd f = { l with selected := some j } := by
  unfold NavLevel.jumpFwd
  rw [hs]
  have hnone : (List.range' (sel + 1) (l.items.length - (sel + 1))).find?
      (fun i => filterMatches f (l.items.getD i (StringOrSong.Dir ""))) = none :=
    find?_range'_eq_none _ _ _ (fun i hi1 hi2 => hafter i (by omega) (by omega))
  have hmm : min (sel + 1) l.items.length = sel + 1 := by omega
  have hfind : (List.range (sel + 1)).find?
      (fun i => filterMatches f (l.items.getD i (StringOrSong.Dir ""))) = some j := by
    rw [List.range_eq_range']
    exact find?_range'_eq_some _ _ _ j (by omega) (by omega) hmatch
      (fun i hi1 hi2 => hmin i hi2)
  simp only [Option.getD_some]
  rw [hnone, hmm, hfind]

/-- C4 counterexample: committing the filter "ab" on `c4Screen` (matches at
indices 0 and 2, selection at 1) moves the selection to index 2, not to the
first matching entry, which sits at index 0. -/
theorem c4_commit_not_first_match :
    handle_action c4Screen ⟨KeyCode.Enter, KeyModifiers.NONE⟩ clientA kbDefault ⟨none⟩
      = Except.ok (c4Post, ⟨none⟩, KeyHandleResult.RenderRequested)
    ∧ firstMatchIdx c4Post.stack.current.items "ab" = some 0
    ∧ c4Post.stack.current.selected = some 2
    ∧ c4Post.stack.current.selected ≠ firstMatchIdx c4Post.stack.current.items "ab" := by
  decide

/-- C4 (amended): committing the filter (Enter in filter-entry mode) leaves the
mode and moves the selection to the next matching entry strictly after the
current selection, wrapping cyclically to the least matching index when no
later entry matches; this is the first match in list order only when no match
precedes the selection. -/
theorem c4_commit_next_match (self : AlbumsScreen) (event : KeyEvent) (client : Client)
    (keybinds : KeyConfig) (shared : Shared) (f : String) (sel : Nat)
    (hm : self.filter_input_mode = true) (he : event.code = KeyCode.Enter)
    (hf : self.stack.filter = some f)
    (hs : self.stack.current.selected = some sel) :
    (∀ j, sel < j → j < self.stack.current.items.length →
      filterMatches f (self.stack.current.items.getD j (StringOrSong.Dir "")) = true →
      (∀ i, sel < i → i < j →
        filterMatches f (self.stack.current.items.getD i (StringOrSong.Dir "")) = false) →
      handle_action self event client keybinds shared = Except.ok
        ({ self with
           filter_input_mode := false,
           stack := { self.stack with
                      current := { self.stack.current with selected := some j } } },
          shared, KeyHandleResult.RenderRequested))
    ∧ (sel < self.stack.current.items.length →
      (∀ i, sel < i → i < self.stack.current.items.length →
        filterMatches f (self.stack.current.items.getD i (StringOrSong.Dir "")) = false) →
      ∀ j, j ≤ sel →
      filterMatches f (self.stack.current.items.getD j (StringOrSong.Dir "")) = true →
      (∀ i, i < j →
        filterMatches f (self.stack.current.items.getD i (StringOrSong.Dir "")) = false) →
      handle_action self event client keybinds shared = Except.ok
        ({ self with
           filter_input_mode := false,
           stack := { self.stack with
                      current := { self.stack.current with selected := some j } } },
          shared, KeyHandleResult.RenderRequested)) := by
  have hrun : handle_action self event client keybinds shared = Except.ok
      ({ self with filter_input_mode := false, stack := self.stack.jump_forward },
        shared, KeyHandleResult.RenderRequested) := by
    simp [handle_action, hm, handleFilterInput, he]
  have hjf : self.stack.jump_forward
      = { self.stack with current := self.stack.current.jumpFwd f } := by
    simp [DirStack.jump_forward, hf]
  constructor
  · intro j hj1 hj2 hmatch hmin
    rw [hrun, hjf, jumpFwd_eq_of_fwd self.stack.current f sel j hs hj1 hj2 hmatch hmin]
  · intro hsel hafter j hj1 hmatch hmin
    rw [hrun, hjf,
      jumpFwd_eq_of_wrap self.stack.current f sel j hs hsel hafter hj1 hmatch
        (fun i hi => hmin i hi)]

/-- Witness for C4 (amended): on `c4Screen` the commit jumps forward from index
1 to the next match at index 2; on `c4WrapScreen` (selection on the last entry)
it wraps to the least match, index 0. -/
theorem c4_commit_next_match_wit :
    handle_action c4Screen ⟨KeyCode.Enter, KeyModifiers.NONE⟩ clientA kbDefault ⟨none⟩
      = Except.ok
          ({ c4Screen with
             filter_input_mode := false,
             stack := { c4Screen.stack with
                        current := { c4Screen.stack.current with selected := some 2 } } },
            ⟨none⟩, KeyHandleResult.RenderRequested)
    ∧ handle_action c4WrapScreen ⟨KeyCode.Enter, KeyModifiers.NONE⟩ clientA kbDefault ⟨none⟩
      = Except.ok
          ({ c4WrapScreen with
             filter_input_mode := false,
             stack := { c4WrapScreen.stack with
                        current := { c4WrapScreen.stack.current with selected := some 0 } } },
            ⟨none⟩, KeyHandleResult.RenderRequested) := by
  constructor
  · exact (c4_commit_next_match c4Screen ⟨KeyCode.Enter, KeyModifiers.NONE⟩ clientA kbDefault
      ⟨none⟩ "ab" 1 rfl rfl rfl rfl).1 2 (by omega) (by decide) (by decide)
      (fun i h1 h2 => by omega)
  · exact (c4_commit_next_match c4WrapScreen ⟨KeyCode.Enter, KeyModifiers.NONE⟩ clientA
      kbDefault ⟨none⟩ "ab" 2 rfl rfl rfl rfl).2 (by decide)
      (fun i h1 h2 => by
        have hlen : c4WrapScreen.stack.current.items.length = 3 := rfl
        omega)
      0 (by omega) (by decide) (fun i h => by omega)

/-- C2: evaluation of the divergence at a concrete failing input. On `c2Screen`
(albums ["A", "B"], "A" selected, prefetch slot holding the preview of "A") the
Bottom jump handled by `handle_action` moves the selection to "B" but leaves
`stack.next` unchanged: recomputing the preview for the new selection would
yield the titles of "B", which the stale slot does not hold. All other
navigation arms route through `storePreview`, which does assign `stack.next`. -/
theorem c2_bottom_discards_preview :
    handle_action c2Screen ⟨KeyCode.Char 'G', KeyModifiers.SHIFT⟩ clientA kbDefault ⟨none⟩
      = Except.ok (c2Post, ⟨none⟩, KeyHandleResult.RenderRequested)
    ∧ c2Screen.stack.current.selected = some 0
    ∧ c2Post.stack.current.selected = some 1
    ∧ c2Post.stack.next = c2Screen.stack.next
    ∧ Res.context (prepare_preview c2Post clientA) "Cannot prepare preview"
      = Except.ok (Preview.titles [StringOrSong.Song "u1"])
    ∧ c2Post.stack.next ≠ some (Preview.titles [StringOrSong.Song "u1"]) := by
  decide

/-- C7: when the distinct-"album" listing answers with values a and b,
`before_show` leaves a single root level holding the two container entries,
selection at index 0, the position reset to Album scope and the prefetch slot
filled from the title listing of a; when the listing reports no albums, the
screen state is left unchanged and the status message "No albums found!" is
set. -/
theorem c7_before_show (self : AlbumsScreen) (client : Client) (shared : Shared) :
    (∀ a b r', client.list_tag "album" none = Except.ok (some [a, b]) →
      client.list_tag "title" (some [⟨"album", a⟩]) = Except.ok r' →
      before_show self client shared = Except.ok
        ({ stack := { current := { items := [StringOrSong.Dir a, StringOrSong.Dir b],
                                   selected := some 0 },
                      others := [], filter := none,
                      next := some (Preview.titles (match r' with
                        | none => []
                        | some v => v.map StringOrSong.Song)),
                      viewport := self.stack.viewport },
           position := CurrentPosition.Album,
           filter_input_mode := self.filter_input_mode }, shared))
    ∧ (client.list_tag "album" none = Except.ok none →
      before_show self client shared = Except.ok
        (self,
          { shared with
            status_message := some { message := "No albums found!", level := Level.Info } }))
    := by
  constructor
  · intro a b r' hl ht
    simp [before_show, Res.context, hl, ht, prepare_preview, DirStack.new, NavLevel.ofItems,
      fetch_album, StringOrSong.to_current_value, Bind.bind, Except.bind, pure, Except.pure]
  · intro hl
    simp [before_show, Res.context, hl, Bind.bind, Except.bind, pure, Except.pure]

/-- Witness for C7: against `clientA` the screen is seeded with ["A", "B"] and
the preview of "A"; against `clientNoAlbums` only the status message is set. -/
theorem c7_before_show_wit :
    before_show scEmpty clientA ⟨none⟩ = Except.ok
      ({ stack := { current := { items := [StringOrSong.Dir "A", StringOrSong.Dir "B"],
                                 selected := some 0 },
                    others := [], filter := none,
                    next := some (Preview.titles (match (some ["t1", "t2"] :
                        Option (List String)) with
                      | none => []
                      | some v => v.map StringOrSong.Song)),
                    viewport := scEmpty.stack.viewport },
         position := CurrentPosition.Album,
         filter_input_mode := scEmpty.filter_input_mode }, ⟨none⟩)
    ∧ before_show scEmpty clientNoAlbums ⟨none⟩ = Except.ok
        (scEmpty, { status_message :=
                      some { message := "No albums found!", level := Level.Info } }) := by
  constructor
  · exact (c7_before_show scEmpty clientA ⟨none⟩).1 "A" "B" (some ["t1", "t2"])
      (by decide) (by decide)
  · exact (c7_before_show scEmpty clientNoAlbums ⟨none⟩).2 (by decide)

end Rmpc
